import Mathlib

/-!
Verification development for `src/bot.py` (BLASTER attendance bot).

The Python module is shallow-embedded below:
* Python strings are Lean `String`s; tokenization helpers (`str.split`,
  `str.strip`, `str.lower`, `str.upper`) are modelled character-by-character
  with Python's whitespace set and ASCII case mapping.
* `datetime.strptime(s, "%d/%m/%Y")` / `datetime.strptime(s, "%H:%M")` are
  modelled by `validDate` / `validTime`, which follow CPython's `_strptime`
  regexes (`%d` = `3[01]|[12]\d|0[1-9]|[1-9]`, `%m` = `1[0-2]|0[1-9]|[1-9]`,
  `%H` = `2[0-3]|[0-1]\d|\d`, `%M` = `[0-5]\d|\d`, `%Y` = four digits) plus
  the calendar check done when the `datetime` object is constructed
  (day of month, leap years, year at least 1).  Digits are ASCII.
* The gspread worksheet is a grid of cells (list of rows of strings) plus a
  column count; `row_values` / `col_values` return the cells of a row/column
  with trailing empty cells trimmed (interior empty cells are kept as `""`),
  exactly as the Sheets API reports them; `update_cell` writes one cell.
* Exceptions are `Except.error`; the messages raised by `strptime` are stood
  in for by fixed strings (their exact text is irrelevant to the claims).
-/

/-! ### Python string primitives -/

/-- Python `str.isspace` characters used by `str.split()` / `str.strip()`
(space, tab, newline, carriage return, vertical tab, form feed). -/
def pyIsSpace (c : Char) : Bool :=
  c.toNat = 32 || c.toNat = 9 || c.toNat = 10 || c.toNat = 13 ||
  c.toNat = 11 || c.toNat = 12

/-- ASCII lower-casing of one character, as Python `str.lower` acts on the
ASCII tokens that occur here. -/
def pyLowerChar (c : Char) : Char :=
  if 65 ≤ c.toNat ∧ c.toNat ≤ 90 then Char.ofNat (c.toNat + 32) else c

/-- ASCII upper-casing of one character, as Python `str.upper` acts on the
ASCII tokens that occur here. -/
def pyUpperChar (c : Char) : Char :=
  if 97 ≤ c.toNat ∧ c.toNat ≤ 122 then Char.ofNat (c.toNat - 32) else c

/-- Python `s.lower()`. -/
def pyLower (s : String) : String := String.mk (s.data.map pyLowerChar)

/-- Python `s.upper()`. -/
def pyUpper (s : String) : String := String.mk (s.data.map pyUpperChar)

/-- Python `s.strip()`: drop leading and trailing whitespace. -/
def pyStrip (s : String) : String :=
  String.mk (((s.data.dropWhile pyIsSpace).reverse.dropWhile pyIsSpace).reverse)

/-- Helper for Python `s.split()`: accumulate the current token (reversed)
while scanning the character list. -/
def pySplitAux : List Char → List Char → List String
  | [], acc => if acc.isEmpty then [] else [String.mk acc.reverse]
  | c :: cs, acc =>
    if pyIsSpace c then
      if acc.isEmpty then pySplitAux cs []
      else String.mk acc.reverse :: pySplitAux cs []
    else pySplitAux cs (c :: acc)

/-- Python `s.split()` (split on whitespace runs, no empty tokens). -/
def pySplit (s : String) : List String := pySplitAux s.data []

/-- Python `s.split(maxsplit=1)`: at most one split; the second element keeps
the rest of the string verbatim (leading separator whitespace removed). -/
def pySplitMax1 (s : String) : List String :=
  let cs := s.data.dropWhile pyIsSpace
  if cs.isEmpty then []
  else
    let tok := cs.takeWhile (fun c => !(pyIsSpace c))
    let rest := (cs.dropWhile (fun c => !(pyIsSpace c))).dropWhile pyIsSpace
    if rest.isEmpty then [String.mk tok] else [String.mk tok, String.mk rest]

/-- Python `s.split(sep)` for a one-character separator `sep` (keeps empty
pieces), used to model `strptime`'s literal `/` and `:` matching. -/
def splitCharAux (sep : Char) : List Char → List Char → List String
  | [], acc => [String.mk acc.reverse]
  | c :: cs, acc =>
    if c = sep then String.mk acc.reverse :: splitCharAux sep cs []
    else splitCharAux sep cs (c :: acc)

/-- Split a string at every occurrence of the character `sep`. -/
def splitChar (sep : Char) (s : String) : List String := splitCharAux sep s.data []

/-! ### strptime models -/

/-- Numeric value of an ASCII digit string (most significant digit first). -/
def digitsVal (s : String) : Nat :=
  s.data.foldl (fun a c => a * 10 + (c.toNat - 48)) 0

/-- All characters are ASCII digits. -/
def allDigits (s : String) : Bool := s.data.all (fun c => c.isDigit)

/-- Gregorian leap-year rule used by `datetime`. -/
def isLeap (y : Nat) : Bool := y % 4 = 0 && (y % 100 ≠ 0 || y % 400 = 0)

/-- Length of month `m` in year `y`, as `datetime` validates it. -/
def daysInMonth (m y : Nat) : Nat :=
  if m = 2 then (if isLeap y then 29 else 28)
  else if m = 4 ∨ m = 6 ∨ m = 9 ∨ m = 11 then 30
  else 31

/-- A day field accepted by strptime `%d`: one digit `1-9` or two digits
`01`-`31`. -/
def validDayStr (s : String) : Bool :=
  allDigits s &&
    ((s.length = 1 && 1 ≤ digitsVal s) ||
     (s.length = 2 && 1 ≤ digitsVal s && digitsVal s ≤ 31))

/-- A month field accepted by strptime `%m`: one digit `1-9` or two digits
`01`-`12`. -/
def validMonthStr (s : String) : Bool :=
  allDigits s &&
    ((s.length = 1 && 1 ≤ digitsVal s) ||
     (s.length = 2 && 1 ≤ digitsVal s && digitsVal s ≤ 12))

/-- A year field accepted by strptime `%Y` and `datetime`: exactly four
digits, value at least `MINYEAR = 1`. -/
def validYearStr (s : String) : Bool :=
  allDigits s && s.length = 4 && 1 ≤ digitsVal s

/-- Model of `datetime.strptime(s, "%d/%m/%Y")` succeeding: the whole string
is day `/` month `/` year with the field formats above and a day that exists
in that month. -/
def validDate (s : String) : Bool :=
  match splitChar '/' s with
  | [d, m, y] =>
    validDayStr d && validMonthStr m && validYearStr y &&
      digitsVal d ≤ daysInMonth (digitsVal m) (digitsVal y)
  | _ => false

/-- An hour field accepted by strptime `%H`: one digit, or two digits
`00`-`23`. -/
def validHourStr (s : String) : Bool :=
  allDigits s && ((s.length = 1) || (s.length = 2 && digitsVal s ≤ 23))

/-- A minute field accepted by strptime `%M`: one digit, or two digits
`00`-`59`. -/
def validMinuteStr (s : String) : Bool :=
  allDigits s && ((s.length = 1) || (s.length = 2 && digitsVal s ≤ 59))

/-- Model of `datetime.strptime(s, "%H:%M")` succeeding. -/
def validTime (s : String) : Bool :=
  match splitChar ':' s with
  | [h, m] => validHourStr h && validMinuteStr m
  | _ => false

/-! ### parse_attendance_args (bot.py lines 131-164) -/

/-- Body of `parse_attendance_args` after tokenization: field extraction and
validation over the argument tokens (`tokens = parts[1].strip().split()`).
Mirrors bot.py lines 140-164; the `strptime` error messages are stand-ins. -/
def parseTokens (tokens : List String) :
    Except String (String × String × String × String × String) :=
  if tokens.length < 5 then .error "Please provide all 5 fields."
  else
    let date_str := tokens.getD 0 ""
    let status_raw := pyStrip (pyLower (tokens.getD 1 ""))
    let time_detail := tokens.getLastD ""
    let name := tokens.getD 2 ""
    let reason := pyStrip (String.intercalate " " ((tokens.drop 3).dropLast))
    if !validDate date_str then
      .error "time data does not match format %d/%m/%Y"
    else
      match
        (if status_raw = "leave" ∨ status_raw = "leaveearly" ∨
            status_raw = "leave_early" then
           some "leave early"
         else if status_raw = "absent" ∨ status_raw = "late" ∨
            status_raw = "leave early" then
           some status_raw
         else none) with
      | none => .error "Status must be one of: absent, late, leave early."
      | some status =>
        if pyUpper time_detail ≠ "NA" ∧ ¬ (validTime time_detail = true) then
          .error "time data does not match format %H:%M"
        else if name = "" then .error "Name cannot be empty."
        else if reason = "" then
          .error "Reason cannot be empty. Use 'Reason NA' if none."
        else .ok (date_str, status, name, reason, time_detail)

/-- `parse_attendance_args(text)`: split off the command word, then parse and
validate the five fields (bot.py lines 131-164). -/
def parse_attendance_args (text : String) :
    Except String (String × String × String × String × String) :=
  match pySplitMax1 text with
  | [] => .error "Missing parameters."
  | [_] => .error "Missing parameters."
  | _ :: rest :: _ => parseTokens (pySplit (pyStrip rest))

example : parse_attendance_args "/attendance 03/09/2025 absent marvell sick NA" =
    .ok ("03/09/2025", "absent", "marvell", "sick", "NA") := by rfl

example : parse_attendance_args "/attendance 03/09/2025 late marvell night class 19:15" =
    .ok ("03/09/2025", "late", "marvell", "night class", "19:15") := by rfl

example : parse_attendance_args "/attendance 03/09/2025 leave early marvell family matter 20:30" =
    .ok ("03/09/2025", "leave early", "early", "marvell family matter", "20:30") := by rfl

example : parse_attendance_args "/attendance" = .error "Missing parameters." := by rfl

example : parse_attendance_args "/attendance 31/02/2025 absent bob sick NA" =
    .error "time data does not match format %d/%m/%Y" := by rfl

example : validDate "29/02/2024" = true := by rfl
example : validDate "29/02/2025" = false := by rfl
example : validTime "19:15" = true := by rfl
example : validTime "24:00" = false := by rfl
example : validTime "5:7" = true := by rfl

/-! ### format_record_line (bot.py lines 166-183) -/

/-- The `handle` computed by `format_record_line`: `f"@{u}"` when the
username is truthy (present and non-empty), else `"N/A"`. -/
def handleOf (tele_username : Option String) : String :=
  match tele_username with
  | some u => if u = "" then "N/A" else "@" ++ u
  | none => "N/A"

/-- `format_record_line` (bot.py lines 166-183): the multi-line cell value. -/
def format_record_line (name : String) (tele_username : Option String)
    (status reason submitted_dt_sgt time_detail : String) : String :=
  let handle := handleOf tele_username
  let time_line :=
    if pyUpper time_detail ≠ "NA" then "\nTime: " ++ time_detail
    else "\nTime: NA"
  "Name: " ++ name ++
    "\nTelegram Handle: " ++ handle ++
    "\nStatus: " ++ status ++
    "\nReason: " ++ reason ++
    "\nSubmitted: " ++ submitted_dt_sgt ++
    time_line

/-- Join a list of lines with newline separators; a multi-line string is the
join of its lines. -/
def joinLines : List String → String
  | [] => ""
  | [a] => a
  | a :: b :: rest => a ++ "\n" ++ joinLines (b :: rest)

/-! ### Worksheet model (gspread) -/

/-- A worksheet: the grid of cell values (row-major, possibly ragged; a
missing entry is an empty cell) plus the sheet's column count. -/
structure Ws where
  grid : List (List String)
  colCount : Nat
deriving DecidableEq, Repr

/-- The value of the cell at 1-based row `r`, column `c` (empty string when
outside the stored grid). -/
def cellAt (ws : Ws) (r c : Nat) : String :=
  ((ws.grid.getD (r - 1) []).getD (c - 1) "")

/-- Two worksheets hold the same value in every (1-based) cell. -/
def cellEq (a b : Ws) : Prop :=
  ∀ r c, 1 ≤ r → 1 ≤ c → cellAt a r c = cellAt b r c

/-- Drop trailing empty strings: the Sheets API reports a row/column only up
to its last non-empty cell, interior empty cells included as `""`. -/
def rtrimEmpty : List String → List String
  | [] => []
  | x :: xs =>
    match rtrimEmpty xs with
    | [] => if x = "" then [] else [x]
    | y :: ys => x :: y :: ys

/-- gspread `ws.row_values(r)` (1-based). -/
def row_values (ws : Ws) (r : Nat) : List String :=
  rtrimEmpty (ws.grid.getD (r - 1) [])

/-- gspread `ws.col_values(c)` (1-based). -/
def col_values (ws : Ws) (c : Nat) : List String :=
  rtrimEmpty (ws.grid.map (fun row => row.getD (c - 1) ""))

/-- Pad a list on the right with `d` up to length `n`. -/
def padTo (l : List α) (n : Nat) (d : α) : List α :=
  l ++ List.replicate (n - l.length) d

/-- gspread `ws.update_cell(r, c, v)` (1-based): write one cell, growing the
stored grid as needed. -/
def update_cell (ws : Ws) (r c : Nat) (v : String) : Ws :=
  let g := padTo ws.grid r []
  let row := padTo (g.getD (r - 1) []) c ""
  { ws with grid := g.set (r - 1) (row.set (c - 1) v) }

/-- gspread `ws.add_cols(n)`: only the column count grows. -/
def add_cols (ws : Ws) (n : Nat) : Ws :=
  { ws with colCount := ws.colCount + n }

/-- Python `list.index(x)` (first index, `ValueError` as `none`). -/
def pyIndex (l : List String) (x : String) : Option Nat :=
  match l with
  | [] => none
  | y :: ys => if y = x then some 0 else (pyIndex ys x).map (· + 1)

/-! ### sheets helpers (bot.py lines 102-125) -/

/-- `ensure_header_row` (bot.py lines 102-105): when row 1 reports no values,
write `""` into A1 (`ws.update("A1:A1", [[""]])`). -/
def ensure_header_row (ws : Ws) : Ws :=
  if row_values ws 1 = [] then update_cell ws 1 1 "" else ws

/-- `get_or_create_date_column` (bot.py lines 107-118): 1-based column index
of the date header, creating the header when missing. -/
def get_or_create_date_column (ws : Ws) (date_str : String) : Nat × Ws :=
  let headers := row_values ws 1
  match pyIndex headers date_str with
  | some i => (i + 1, ws)
  | none =>
    let target_col := if headers = [] then 1 else max headers.length 1 + 1
    let ws1 :=
      if ws.colCount < target_col then add_cols ws (target_col - ws.colCount)
      else ws
    (target_col, update_cell ws1 1 target_col date_str)

/-- The row index `append_record_under_column` writes to (bot.py lines
122-124): one past the reported column length, bumped to 2 when that is 1. -/
def first_empty_row (ws : Ws) (col_idx : Nat) : Nat :=
  let n := (col_values ws col_idx).length + 1
  if n = 1 then 2 else n

/-- `append_record_under_column` (bot.py lines 120-125). -/
def append_record_under_column (ws : Ws) (col_idx : Nat)
    (record_line : String) : Ws :=
  update_cell ws (first_empty_row ws col_idx) col_idx record_line

example :
    get_or_create_date_column ⟨[["01/01/2025", "02/01/2025"]], 26⟩ "02/01/2025" =
      (2, ⟨[["01/01/2025", "02/01/2025"]], 26⟩) := by rfl

example :
    get_or_create_date_column ⟨[["01/01/2025"]], 26⟩ "02/01/2025" =
      (2, ⟨[["01/01/2025", "02/01/2025"]], 26⟩) := by rfl

example : get_or_create_date_column ⟨[], 26⟩ "02/01/2025" =
    (1, ⟨[["02/01/2025"]], 26⟩) := by rfl

example :
    append_record_under_column ⟨[["h"], ["r1"]], 26⟩ 1 "r2" =
      ⟨[["h"], ["r1"], ["r2"]], 26⟩ := by rfl

example : first_empty_row ⟨[], 26⟩ 1 = 2 := by rfl

example : first_empty_row ⟨[["h"], [], ["r1"]], 26⟩ 1 = 4 := by rfl

/-! ### The /attendance handler (bot.py lines 193-244)

The handler talks to Telegram (replies) and to the Sheets API.  Replies are
collected in a list; the Sheets API is modelled with fault injection: the
`try` block of the handler performs four spreadsheet operations in order
(`get_ws`; `ensure_header_row`; `get_or_create_date_column`;
`append_record_under_column`), and `failAt = some k` makes the `k`-th of
them raise `apiErr` (leaving the sheet as it was before that operation).
`attempts` counts the spreadsheet operations attempted, the raising one
included.  The Singapore timestamp `ts_sgt` and the Telegram username are
inputs, since they come from the environment. -/

/-- bot.py lines 47-54. -/
def ATTENDANCE_INSTRUCTIONS : String :=
  "🙆🏼‍♂️🙆🏼‍♀️ this is how you log your attendance:\n" ++
  "/attendance [DD/MM/YYYY] [absent/late/leave early] [Name] [Reason] [NA/HH:MM (24h format)]\n\n" ++
  "examples:\n" ++
  "• /attendance 03/09/2025 absent marvell sick NA\n" ++
  "• /attendance 03/09/2025 late marvell night class 19:15\n" ++
  "• /attendance 03/09/2025 leave early marvell family matter 20:30"

/-- The reply sent when `parse_attendance_args` raises (bot.py lines
203-208). -/
def parseErrReply (e : String) : String :=
  "⚠️ " ++ e ++ "\n\n" ++
  "Format:\n/attendance [DD/MM/YYYY] [absent/late/leave early] [Name] [Reason] [NA/HH:MM (24h format)]"

/-- The reply sent when a Sheets operation raises (bot.py lines 236-244).
The traceback tail (`More: {tb}`) is not modelled. -/
def sheetsErrReply (e : String) : String :=
  "❌ Could not write to Google Sheets.\n" ++
  "• Check GSHEET_ID\n" ++
  "• Ensure the Sheet is shared with the service account email (Editor)\n" ++
  "• Confirm SERVICE_ACCOUNT_FILE path\n" ++
  "Error: " ++ e

/-- The confirmation reply (bot.py lines 226-234). -/
def successReply (name status date_str reason time_detail ts_sgt : String) :
    String :=
  "✅ thank you " ++ name ++ "! your submission has been recorded.\n\n" ++
  "Type: " ++ status ++ "\n" ++
  "Date: " ++ date_str ++ "\n" ++
  "Reason: " ++ reason ++ "\n" ++
  (if pyUpper time_detail ≠ "NA" then "Time (if applicable): " ++ time_detail
   else "Time (if applicable): NA") ++ "\n" ++
  "Submitted at: " ++ ts_sgt

/-- Result of the spreadsheet section of the handler's second `try` block. -/
structure FlowOut where
  err : Option String
  ws : Ws
  attempts : Nat
deriving DecidableEq, Repr

/-- The spreadsheet operations of the handler's `try` block (bot.py lines
210-224) in program order, with fault injection (see section comment). -/
def sheetsFlow (failAt : Option Nat) (apiErr : String) (ws0 : Ws)
    (date_str record_line : String) : FlowOut :=
  if failAt = some 1 then ⟨some apiErr, ws0, 1⟩          -- get_ws raises
  else if failAt = some 2 then ⟨some apiErr, ws0, 2⟩     -- ensure_header_row raises
  else
    let ws1 := ensure_header_row ws0
    if failAt = some 3 then ⟨some apiErr, ws1, 3⟩        -- get_or_create raises
    else
      let cr := get_or_create_date_column ws1 date_str
      if failAt = some 4 then ⟨some apiErr, cr.2, 4⟩     -- append raises
      else ⟨none, append_record_under_column cr.2 cr.1 record_line, 4⟩

/-- What one `/attendance` invocation produced: the replies sent, the final
sheet, and the number of spreadsheet operations attempted. -/
structure HandlerOut where
  replies : List String
  ws : Ws
  attempts : Nat
deriving DecidableEq, Repr

/-- The `attendance` handler (bot.py lines 193-244).  `msg` is
`update.message.text`, `username` is `update.effective_user.username`,
`ts_sgt` is the formatted Singapore timestamp.  Both `try/except` blocks are
part of the function: every exception of the body is converted into a reply,
so the handler always returns a `HandlerOut`. -/
def attendance (msg : String) (username : Option String) (ts_sgt : String)
    (failAt : Option Nat) (apiErr : String) (ws0 : Ws) : HandlerOut :=
  let m := pyStrip msg
  if m = "/attendance" then ⟨[ATTENDANCE_INSTRUCTIONS], ws0, 0⟩
  else
    match parse_attendance_args m with
    | .error e => ⟨[parseErrReply e], ws0, 0⟩
    | .ok (date_str, status, name, reason, time_detail) =>
      let record_line :=
        format_record_line name username status reason ts_sgt time_detail
      match sheetsFlow failAt apiErr ws0 date_str record_line with
      | ⟨some e, ws', n⟩ => ⟨[sheetsErrReply e], ws', n⟩
      | ⟨none, ws', n⟩ =>
        ⟨[successReply name status date_str reason time_detail ts_sgt], ws', n⟩

example :
    attendance "/attendance 03/09/2025 absent marvell sick NA" (some "marv")
      "2025-09-03 10:00:00" none "boom" ⟨[], 26⟩ =
    ⟨["✅ thank you marvell! your submission has been recorded.\n\nType: absent\nDate: 03/09/2025\nReason: sick\nTime (if applicable): NA\nSubmitted at: 2025-09-03 10:00:00"],
     ⟨[["03/09/2025"], ["Name: marvell\nTelegram Handle: @marv\nStatus: absent\nReason: sick\nSubmitted: 2025-09-03 10:00:00\nTime: NA"]], 26⟩,
     4⟩ := by rfl

example :
    attendance "/attendance" none "ts" none "boom" ⟨[], 26⟩ =
      ⟨[ATTENDANCE_INSTRUCTIONS], ⟨[], 26⟩, 0⟩ := by rfl

example :
    (attendance "/attendance oops" none "ts" none "boom" ⟨[], 26⟩).attempts = 0 := by
  rfl

example :
    attendance "/attendance 03/09/2025 absent marvell sick NA" none
      "ts" (some 1) "boom" ⟨[], 26⟩ =
    ⟨[sheetsErrReply "boom"], ⟨[], 26⟩, 1⟩ := by rfl

/-! ### List-level lemmas -/

theorem getD_replicate' (k i : Nat) (d : α) :
    (List.replicate k d).getD i d = d := by
  induction k generalizing i with
  | zero => simp
  | succ m ih =>
    cases i with
    | zero => simp [List.replicate_succ]
    | succ j => simp [List.replicate_succ, List.getD_cons_succ, ih]

theorem getD_append_replicate (l : List α) (k i : Nat) (d : α) :
    (l ++ List.replicate k d).getD i d = l.getD i d := by
  induction l generalizing i with
  | nil => simp [getD_replicate']
  | cons x xs ih =>
    cases i with
    | zero => simp
    | succ j => simpa using ih j

theorem getD_pad (l : List α) (n i : Nat) (d : α) :
    (padTo l n d).getD i d = l.getD i d := by
  unfold padTo
  exact getD_append_replicate l _ i d

theorem length_pad_ge (l : List α) (n : Nat) (d : α) :
    n ≤ (padTo l n d).length := by
  simp only [padTo, List.length_append, List.length_replicate]
  omega

theorem getD_set_self (l : List α) (i : Nat) (v d : α) (h : i < l.length) :
    (l.set i v).getD i d = v := by
  induction l generalizing i with
  | nil => simp at h
  | cons x xs ih =>
    cases i with
    | zero => simp [List.set_cons_zero]
    | succ j =>
      simp only [List.set_cons_succ, List.getD_cons_succ]
      exact ih j (by simpa using h)

theorem getD_set_ne (l : List α) (i j : Nat) (v d : α) (h : i ≠ j) :
    (l.set i v).getD j d = l.getD j d := by
  induction l generalizing i j with
  | nil => simp
  | cons x xs ih =>
    cases i with
    | zero => cases j with
      | zero => exact absurd rfl h
      | succ j' => simp [List.set_cons_zero, List.getD_cons_succ]
    | succ i' => cases j with
      | zero => simp [List.set_cons_succ]
      | succ j' =>
        simp only [List.set_cons_succ, List.getD_cons_succ]
        exact ih i' j' (by omega)

theorem getD_map_getD (g : List (List String)) (c i : Nat) :
    (g.map (fun row => row.getD c "")).getD i "" = (g.getD i []).getD c "" := by
  induction g generalizing i with
  | nil => simp
  | cons x xs ih =>
    cases i with
    | zero => simp
    | succ j => simpa using ih j

theorem getD_append_length (l : List String) (x : String) (d : String) :
    (l ++ [x]).getD l.length d = x := by
  induction l with
  | nil => simp
  | cons y ys ih => simp [ih]

/-! ### rtrimEmpty lemmas -/

theorem rtrim_eq_nil_iff (l : List String) :
    rtrimEmpty l = [] ↔ ∀ x ∈ l, x = "" := by
  induction l with
  | nil => simp [rtrimEmpty]
  | cons x xs ih =>
    unfold rtrimEmpty
    constructor
    · intro h
      cases hxs : rtrimEmpty xs with
      | nil =>
        rw [hxs] at h
        by_cases hx : x = ""
        · intro y hy
          rcases List.mem_cons.mp hy with rfl | hmem
          · exact hx
          · exact (ih.mp hxs) y hmem
        · simp [hx] at h
      | cons z zs => rw [hxs] at h; simp at h
    · intro h
      have hx : x = "" := h x (List.mem_cons_self x xs)
      have hxs : rtrimEmpty xs = [] :=
        ih.mpr (fun y hy => h y (List.mem_cons_of_mem x hy))
      rw [hxs]
      simp [hx]

theorem rtrim_ext (l l' : List String)
    (h : ∀ i, l.getD i "" = l'.getD i "") : rtrimEmpty l = rtrimEmpty l' := by
  induction l generalizing l' with
  | nil =>
    have : rtrimEmpty l' = [] := by
      rw [rtrim_eq_nil_iff]
      intro x hx
      obtain ⟨i, hi, rfl⟩ := List.getElem_of_mem hx
      have := h i
      simp [List.getD] at this
      rw [List.getElem?_eq_getElem hi] at this
      simpa using this.symm
    rw [this]; rfl
  | cons x xs ih =>
    cases l' with
    | nil =>
      have : rtrimEmpty (x :: xs) = [] := by
        rw [rtrim_eq_nil_iff]
        intro y hy
        obtain ⟨i, hi, rfl⟩ := List.getElem_of_mem hy
        have := h i
        simp [List.getD] at this
        rw [List.getElem?_eq_getElem hi] at this
        simpa using this
      rw [this]; rfl
    | cons y ys =>
      have h0 : x = y := by simpa [List.getD] using h 0
      have htail : ∀ i, xs.getD i "" = ys.getD i "" := by
        intro i
        simpa [List.getD] using h (i + 1)
      have := ih ys htail
      unfold rtrimEmpty
      rw [this, h0]

theorem getD_empty_of_all (l : List String) (i : Nat) (h : ∀ y ∈ l, y = "") :
    l.getD i "" = "" := by
  induction l generalizing i with
  | nil => simp
  | cons x xs ih =>
    cases i with
    | zero => simpa using h x (List.mem_cons_self x xs)
    | succ j =>
      simp only [List.getD_cons_succ]
      exact ih j (fun y hy => h y (List.mem_cons_of_mem x hy))

theorem rtrim_getD_lt (l : List String) (i : Nat)
    (h : i < (rtrimEmpty l).length) : (rtrimEmpty l).getD i "" = l.getD i "" := by
  induction l generalizing i with
  | nil => simp [rtrimEmpty]
  | cons x xs ih =>
    cases hxs : rtrimEmpty xs with
    | nil =>
      by_cases hx : x = ""
      · rw [show rtrimEmpty (x :: xs) = [] from by
          unfold rtrimEmpty; rw [hxs]; simp [hx]] at h
        simp at h
      · have hr : rtrimEmpty (x :: xs) = [x] := by
          unfold rtrimEmpty; rw [hxs]; simp [hx]
        rw [hr] at h ⊢
        cases i with
        | zero => simp
        | succ j => simp at h
    | cons z zs =>
      have hr : rtrimEmpty (x :: xs) = x :: z :: zs := by
        unfold rtrimEmpty; rw [hxs]
      rw [hr] at h ⊢
      cases i with
      | zero => simp
      | succ j =>
        simp only [List.getD_cons_succ]
        have hj : j < (rtrimEmpty xs).length := by rw [hxs]; simpa using h
        have := ih j hj
        rw [hxs] at this
        exact this

theorem rtrim_getD_beyond (l : List String) (i : Nat)
    (h : (rtrimEmpty l).length ≤ i) : l.getD i "" = "" := by
  induction l generalizing i with
  | nil => simp
  | cons x xs ih =>
    cases hxs : rtrimEmpty xs with
    | nil =>
      have hxs' : ∀ y ∈ xs, y = "" := (rtrim_eq_nil_iff xs).mp hxs
      by_cases hx : x = ""
      · cases i with
        | zero => simpa using hx
        | succ j =>
          simp only [List.getD_cons_succ]
          exact getD_empty_of_all xs j hxs'
      · have hr : rtrimEmpty (x :: xs) = [x] := by
          unfold rtrimEmpty; rw [hxs]; simp [hx]
        rw [hr] at h
        simp at h
        cases i with
        | zero => omega
        | succ j =>
          simp only [List.getD_cons_succ]
          exact getD_empty_of_all xs j hxs'
    | cons z zs =>
      have hr : rtrimEmpty (x :: xs) = x :: z :: zs := by
        unfold rtrimEmpty; rw [hxs]
      rw [hr] at h
      cases i with
      | zero => simp at h
      | succ j =>
        simp only [List.getD_cons_succ]
        refine ih j ?_
        rw [hxs]
        simpa using h

theorem rtrim_last_ne (l : List String) (h : rtrimEmpty l ≠ []) :
    l.getD ((rtrimEmpty l).length - 1) "" ≠ "" := by
  induction l with
  | nil => simp [rtrimEmpty] at h
  | cons x xs ih =>
    cases hxs : rtrimEmpty xs with
    | nil =>
      by_cases hx : x = ""
      · have : rtrimEmpty (x :: xs) = [] := by
          unfold rtrimEmpty; rw [hxs]; simp [hx]
        exact absurd this h
      · have hr : rtrimEmpty (x :: xs) = [x] := by
          unfold rtrimEmpty; rw [hxs]; simp [hx]
        rw [hr]
        simpa using hx
    | cons z zs =>
      have hr : rtrimEmpty (x :: xs) = x :: z :: zs := by
        unfold rtrimEmpty; rw [hxs]
      rw [hr]
      have hne : rtrimEmpty xs ≠ [] := by rw [hxs]; simp
      have := ih hne
      rw [hxs] at this
      simpa using this

theorem rtrim_concat (l : List String) (x : String) (hx : x ≠ "") :
    rtrimEmpty (l ++ [x]) = l ++ [x] := by
  induction l with
  | nil => simp [rtrimEmpty, hx]
  | cons y ys ih =>
    simp only [List.cons_append]
    unfold rtrimEmpty
    rw [ih]
    cases hys : ys ++ [x] with
    | nil => exact absurd hys (by simp)
    | cons a as => rfl

/-! ### Worksheet-level lemmas -/

theorem cellAt_update_cell (ws : Ws) (r c r' c' : Nat) (v : String)
    (hr : 1 ≤ r) (hc : 1 ≤ c) (hr' : 1 ≤ r') (hc' : 1 ≤ c') :
    cellAt (update_cell ws r c v) r' c' =
      if r' = r ∧ c' = c then v else cellAt ws r' c' := by
  simp only [cellAt, update_cell]
  by_cases hrr : r' = r
  · subst hrr
    have hlen : r' - 1 < (padTo ws.grid r' []).length := by
      have := length_pad_ge ws.grid r' ([] : List String)
      omega
    rw [getD_set_self _ _ _ _ hlen]
    by_cases hcc : c' = c
    · subst hcc
      have hlen2 :
          c' - 1 < (padTo ((padTo ws.grid r' []).getD (r' - 1) []) c' "").length := by
        have := length_pad_ge ((padTo ws.grid r' []).getD (r' - 1) []) c' ""
        omega
      rw [getD_set_self _ _ _ _ hlen2]
      simp
    · have hne : (c : Nat) - 1 ≠ c' - 1 := by omega
      rw [getD_set_ne _ _ _ _ _ hne, getD_pad, getD_pad]
      simp [hcc]
  · have hne : (r : Nat) - 1 ≠ r' - 1 := by omega
    rw [getD_set_ne _ _ _ _ _ hne, getD_pad]
    simp [hrr]

theorem cellAt_add_cols (ws : Ws) (n r c : Nat) :
    cellAt (add_cols ws n) r c = cellAt ws r c := rfl

theorem rowList_getD (ws : Ws) (r i : Nat) :
    (ws.grid.getD (r - 1) []).getD i "" = cellAt ws r (i + 1) := by
  simp [cellAt]

theorem colList_getD (ws : Ws) (c i : Nat) :
    (ws.grid.map (fun row => row.getD (c - 1) "")).getD i "" =
      cellAt ws (i + 1) c := by
  rw [getD_map_getD]
  simp [cellAt]

theorem cellEq_refl (a : Ws) : cellEq a a := fun _ _ _ _ => rfl

theorem row_values_congr {a b : Ws} (h : cellEq a b) (r : Nat) (hr : 1 ≤ r) :
    row_values a r = row_values b r := by
  unfold row_values
  apply rtrim_ext
  intro i
  rw [rowList_getD, rowList_getD]
  exact h r (i + 1) hr (by omega)

theorem col_values_congr {a b : Ws} (h : cellEq a b) (c : Nat) (hc : 1 ≤ c) :
    col_values a c = col_values b c := by
  unfold col_values
  apply rtrim_ext
  intro i
  rw [colList_getD, colList_getD]
  exact h (i + 1) c (by omega) hc

theorem update_cell_congr {a b : Ws} (h : cellEq a b) (r c : Nat) (v : String)
    (hr : 1 ≤ r) (hc : 1 ≤ c) :
    cellEq (update_cell a r c v) (update_cell b r c v) := by
  intro r' c' hr' hc'
  rw [cellAt_update_cell _ _ _ _ _ _ hr hc hr' hc',
      cellAt_update_cell _ _ _ _ _ _ hr hc hr' hc']
  split
  · rfl
  · exact h r' c' hr' hc'

/-! ### pyIndex lemmas -/

theorem pyIndex_none_iff (l : List String) (x : String) :
    pyIndex l x = none ↔ x ∉ l := by
  induction l with
  | nil => simp [pyIndex]
  | cons y ys ih =>
    unfold pyIndex
    by_cases h : y = x
    · simp [h]
    · simp only [h, if_false, Option.map_eq_none', ih, List.mem_cons]
      constructor
      · intro hn hc
        rcases hc with rfl | hmem
        · exact h rfl
        · exact hn hmem
      · intro hn
        exact fun hmem => hn (Or.inr hmem)

theorem pyIndex_some_spec (l : List String) (x : String) (i : Nat)
    (h : pyIndex l x = some i) : i < l.length ∧ l.getD i "" = x := by
  induction l generalizing i with
  | nil => simp [pyIndex] at h
  | cons y ys ih =>
    unfold pyIndex at h
    by_cases hy : y = x
    · simp only [hy, if_true, Option.some.injEq] at h
      subst h
      exact ⟨by simp, by simpa using hy⟩
    · simp only [hy, if_false] at h
      obtain ⟨j, hj, rfl⟩ := Option.map_eq_some'.mp h
      obtain ⟨h1, h2⟩ := ih j hj
      exact ⟨by simpa using h1, by simpa using h2⟩

theorem pyIndex_mem (l : List String) (x : String) (i : Nat)
    (h : pyIndex l x = some i) : x ∈ l := by
  by_contra hmem
  rw [← pyIndex_none_iff] at hmem
  rw [hmem] at h
  exact Option.noConfusion h

/-! ### ensure_header_row lemmas -/

theorem ensure_cellEq (ws : Ws) : cellEq (ensure_header_row ws) ws := by
  intro r c hr hc
  unfold ensure_header_row
  split
  · next hemp =>
    rw [cellAt_update_cell ws 1 1 r c "" le_rfl le_rfl hr hc]
    split
    · next heq =>
      obtain ⟨rfl, rfl⟩ := heq
      have : (ws.grid.getD 0 []).getD 0 "" = "" := by
        apply rtrim_getD_beyond
        unfold row_values at hemp
        simp only [Nat.sub_self] at hemp
        rw [hemp]
        simp
      exact this.symm
    · rfl
  · rfl

/-! ### get_or_create_date_column lemmas -/

theorem target_col_eq (headers : List String) :
    (if headers = [] then 1 else max headers.length 1 + 1) =
      headers.length + 1 := by
  cases headers with
  | nil => rfl
  | cons x xs =>
    simp only [List.length_cons, if_neg (by simp : ¬(x :: xs = []))]
    omega

theorem gcreate_of_found (ws : Ws) (d : String) (i : Nat)
    (h : pyIndex (row_values ws 1) d = some i) :
    get_or_create_date_column ws d = (i + 1, ws) := by
  simp only [get_or_create_date_column]
  rw [h]

theorem gcreate_of_missing (ws : Ws) (d : String)
    (h : pyIndex (row_values ws 1) d = none) :
    get_or_create_date_column ws d =
      ((row_values ws 1).length + 1,
       update_cell
         (if ws.colCount < (row_values ws 1).length + 1 then
            add_cols ws ((row_values ws 1).length + 1 - ws.colCount)
          else ws)
         1 ((row_values ws 1).length + 1) d) := by
  simp only [get_or_create_date_column]
  rw [h, target_col_eq]

theorem cellAt_if_add_cols (ws : Ws) (p : Prop) [Decidable p] (n r c : Nat) :
    cellAt (if p then add_cols ws n else ws) r c = cellAt ws r c := by
  split
  · exact cellAt_add_cols ws n r c
  · rfl

theorem gcreate_col_pos (ws : Ws) (d : String) :
    1 ≤ (get_or_create_date_column ws d).1 := by
  cases h : pyIndex (row_values ws 1) d with
  | some i => rw [gcreate_of_found ws d i h]; omega
  | none => rw [gcreate_of_missing ws d h]; omega

theorem gcreate_frame (ws : Ws) (d : String) (r c : Nat)
    (hr : 1 ≤ r) (hc : 1 ≤ c)
    (hne : cellAt (get_or_create_date_column ws d).2 r c ≠ cellAt ws r c) :
    r = 1 ∧ c = (get_or_create_date_column ws d).1 := by
  cases h : pyIndex (row_values ws 1) d with
  | some i =>
    rw [gcreate_of_found ws d i h] at hne
    exact absurd rfl hne
  | none =>
    rw [gcreate_of_missing ws d h] at hne ⊢
    rw [cellAt_update_cell _ 1 ((row_values ws 1).length + 1) r c d
        le_rfl (by omega) hr hc] at hne
    split at hne
    · next h2 => exact ⟨h2.1, h2.2⟩
    · rw [cellAt_if_add_cols] at hne
      exact absurd rfl hne

theorem gcreate_congr {a b : Ws} (h : cellEq a b) (d : String) :
    (get_or_create_date_column a d).1 = (get_or_create_date_column b d).1 ∧
    cellEq (get_or_create_date_column a d).2 (get_or_create_date_column b d).2 := by
  have hrow : row_values a 1 = row_values b 1 := row_values_congr h 1 le_rfl
  cases hpi : pyIndex (row_values b 1) d with
  | some i =>
    have hpa : pyIndex (row_values a 1) d = some i := by rw [hrow]; exact hpi
    rw [gcreate_of_found a d i hpa, gcreate_of_found b d i hpi]
    exact ⟨rfl, h⟩
  | none =>
    have hpa : pyIndex (row_values a 1) d = none := by rw [hrow]; exact hpi
    rw [gcreate_of_missing a d hpa, gcreate_of_missing b d hpi, hrow]
    refine ⟨rfl, ?_⟩
    intro r c hr hc
    rw [cellAt_update_cell _ _ _ _ _ _ le_rfl (by omega) hr hc,
        cellAt_update_cell _ _ _ _ _ _ le_rfl (by omega) hr hc]
    split
    · rfl
    · rw [cellAt_if_add_cols, cellAt_if_add_cols]
      exact h r c hr hc

theorem gcreate_row1_missing (ws : Ws) (d : String) (hd : d ≠ "")
    (h : pyIndex (row_values ws 1) d = none) :
    row_values (get_or_create_date_column ws d).2 1 =
      row_values ws 1 ++ [d] := by
  rw [gcreate_of_missing ws d h]
  have h0 : ∀ (w : Ws) (i : Nat),
      (w.grid.getD 0 []).getD i "" = cellAt w 1 (i + 1) := by
    intro w i
    simp [cellAt]
  have hext : ∀ i,
      ((update_cell
          (if ws.colCount < (row_values ws 1).length + 1 then
             add_cols ws ((row_values ws 1).length + 1 - ws.colCount)
           else ws)
          1 ((row_values ws 1).length + 1) d).grid.getD 0 []).getD i ""
        = (row_values ws 1 ++ [d]).getD i "" := by
    intro i
    rw [h0]
    rw [cellAt_update_cell _ 1 ((row_values ws 1).length + 1) 1 (i + 1) d
        le_rfl (by omega) le_rfl (by omega)]
    rw [cellAt_if_add_cols]
    by_cases hi : i = (row_values ws 1).length
    · subst hi
      rw [if_pos ⟨rfl, rfl⟩]
      rw [getD_append_length]
    · have hcond : ¬(1 = 1 ∧ i + 1 = (row_values ws 1).length + 1) := by
        intro hcon
        exact hi (by omega)
      rw [if_neg hcond]
      by_cases hlt : i < (row_values ws 1).length
      · rw [List.getD_append _ _ _ _ hlt]
        have h2 := rtrim_getD_lt (ws.grid.getD 0 []) i hlt
        rw [h0 ws i] at h2
        exact h2.symm
      · have hge : (rtrimEmpty (ws.grid.getD 0 [])).length ≤ i := by
          have : (row_values ws 1).length ≤ i := by omega
          exact this
        have hb := rtrim_getD_beyond (ws.grid.getD 0 []) i hge
        rw [h0 ws i] at hb
        rw [List.getD_eq_default _ _ (by simp; omega)]
        exact hb
  calc rtrimEmpty ((update_cell
          (if ws.colCount < (row_values ws 1).length + 1 then
             add_cols ws ((row_values ws 1).length + 1 - ws.colCount)
           else ws)
          1 ((row_values ws 1).length + 1) d).grid.getD 0 [])
      = rtrimEmpty (row_values ws 1 ++ [d]) := rtrim_ext _ _ hext
    _ = row_values ws 1 ++ [d] := rtrim_concat _ _ hd

/-! ### append_record_under_column lemmas -/

theorem first_empty_row_ge_two (ws : Ws) (c : Nat) :
    2 ≤ first_empty_row ws c := by
  simp only [first_empty_row]
  split <;> omega

theorem cellAt_beyond_col (ws : Ws) (c r : Nat)
    (hr : (col_values ws c).length + 1 ≤ r) : cellAt ws r c = "" := by
  have h1 : (rtrimEmpty (ws.grid.map (fun row => row.getD (c - 1) ""))).length
      ≤ r - 1 := by
    unfold col_values at hr
    omega
  have h2 := rtrim_getD_beyond _ _ h1
  rw [colList_getD] at h2
  have hr1 : r - 1 + 1 = r := by omega
  rwa [hr1] at h2

theorem cellAt_last_col (ws : Ws) (c : Nat) (h : col_values ws c ≠ []) :
    cellAt ws (col_values ws c).length c ≠ "" := by
  have hne : rtrimEmpty (ws.grid.map (fun row => row.getD (c - 1) "")) ≠ [] := by
    unfold col_values at h
    exact h
  have h2 := rtrim_last_ne _ hne
  rw [colList_getD] at h2
  have hlen : 1 ≤ (col_values ws c).length := by
    cases hcv : col_values ws c with
    | nil => exact absurd hcv h
    | cons z zs => simp [hcv]
  have he : (rtrimEmpty (ws.grid.map (fun row => row.getD (c - 1) ""))).length
      = (col_values ws c).length := rfl
  rw [he] at h2
  have hr1 : (col_values ws c).length - 1 + 1 = (col_values ws c).length := by
    omega
  rwa [hr1] at h2

theorem append_frame (ws : Ws) (c : Nat) (s : String) (hc : 1 ≤ c)
    (r c' : Nat) (hr : 1 ≤ r) (hc' : 1 ≤ c')
    (hne : cellAt (append_record_under_column ws c s) r c' ≠ cellAt ws r c') :
    r = first_empty_row ws c ∧ c' = c := by
  unfold append_record_under_column at hne
  rw [cellAt_update_cell _ _ _ _ _ _
      (by have := first_empty_row_ge_two ws c; omega) hc hr hc'] at hne
  split at hne
  · next h2 => exact h2
  · exact absurd rfl hne

theorem append_congr {a b : Ws} (h : cellEq a b) (c : Nat) (s : String)
    (hc : 1 ≤ c) :
    cellEq (append_record_under_column a c s)
      (append_record_under_column b c s) := by
  unfold append_record_under_column
  have hrow : first_empty_row a c = first_empty_row b c := by
    unfold first_empty_row
    rw [col_values_congr h c hc]
  rw [hrow]
  exact update_cell_congr h _ _ _
    (by have := first_empty_row_ge_two b c; omega) hc

theorem parseTokens_validates (tokens : List String) (d s n r t : String)
    (h : parseTokens tokens = .ok (d, s, n, r, t)) :
    validDate d = true ∧ (s = "absent" ∨ s = "late" ∨ s = "leave early") ∧
    n ≠ "" ∧ r ≠ "" ∧ (pyUpper t = "NA" ∨ validTime t = true) := by
  simp only [parseTokens] at h
  split at h
  · exact absurd h (by simp)
  · split at h
    · exact absurd h (by simp)
    · next hdate =>
      split at h
      · exact absurd h (by simp)
      · next st heq =>
        split at h
        · exact absurd h (by simp)
        · next htime =>
          split at h
          · exact absurd h (by simp)
          · next hname =>
            split at h
            · exact absurd h (by simp)
            · next hreason =>
              simp only [Except.ok.injEq, Prod.mk.injEq] at h
              obtain ⟨rfl, rfl, rfl, rfl, rfl⟩ := h
              refine ⟨by simpa using hdate, ?_, hname, hreason, ?_⟩
              · split at heq
                · simp only [Option.some.injEq] at heq
                  subst heq
                  exact Or.inr (Or.inr rfl)
                · next hB =>
                  split at heq
                  · next hB2 =>
                    simp only [Option.some.injEq] at heq
                    subst heq
                    exact hB2
                  · exact absurd heq (by simp)
              · by_cases hna : pyUpper (tokens.getLastD "") = "NA"
                · exact Or.inl hna
                · right
                  by_contra hvt
                  exact htime ⟨hna, hvt⟩

/-- C3: for every input text, `parse_attendance_args` either raises or
returns five fields that all pass validation: a date accepted by
`strptime("%d/%m/%Y")`, a status among `absent`, `late`, `leave early`, a
non-empty name, a non-empty reason, and a time detail that is `NA`
(case-insensitively) or accepted by `strptime("%H:%M")`. -/
theorem parse_attendance_args_validates (text d s n r t : String)
    (h : parse_attendance_args text = .ok (d, s, n, r, t)) :
    validDate d = true ∧ (s = "absent" ∨ s = "late" ∨ s = "leave early") ∧
    n ≠ "" ∧ r ≠ "" ∧ (pyUpper t = "NA" ∨ validTime t = true) := by
  unfold parse_attendance_args at h
  split at h
  · exact absurd h (by simp)
  · exact absurd h (by simp)
  · exact parseTokens_validates _ _ _ _ _ _ h

/-- Witness for C3 at a concrete invocation. -/
theorem parse_attendance_args_validates_witness :
    validDate "03/09/2025" = true ∧
    ("absent" = "absent" ∨ "absent" = "late" ∨ "absent" = "leave early") ∧
    "marvell" ≠ "" ∧ "sick" ≠ "" ∧
    (pyUpper "NA" = "NA" ∨ validTime "NA" = true) :=
  parse_attendance_args_validates
    "/attendance 03/09/2025 absent marvell sick NA"
    "03/09/2025" "absent" "marvell" "sick" "NA" (by rfl)

theorem first_empty_row_eq (ws : Ws) (c : Nat) :
    first_empty_row ws c = max ((col_values ws c).length + 1) 2 := by
  simp only [first_empty_row]
  split <;> omega

/-- C8: the target row of `append_record_under_column` is at least 2 even on
an entirely empty column, so the header row (row 1) is never overwritten. -/
theorem append_record_preserves_header_row (ws : Ws) (c : Nat)
    (record_line : String) (hc : 1 ≤ c) :
    2 ≤ first_empty_row ws c ∧
    ∀ c', 1 ≤ c' →
      cellAt (append_record_under_column ws c record_line) 1 c' =
        cellAt ws 1 c' := by
  refine ⟨first_empty_row_ge_two ws c, ?_⟩
  intro c' hc'
  unfold append_record_under_column
  rw [cellAt_update_cell _ _ _ _ _ _
      (by have := first_empty_row_ge_two ws c; omega) hc le_rfl hc']
  have hne : ¬(1 = first_empty_row ws c ∧ c' = c) := by
    intro hcon
    have := first_empty_row_ge_two ws c
    omega
  rw [if_neg hne]

/-- Witness for C8 on an empty sheet. -/
theorem append_record_preserves_header_row_witness :
    2 ≤ first_empty_row (⟨[], 26⟩ : Ws) 1 ∧
    ∀ c', 1 ≤ c' →
      cellAt (append_record_under_column (⟨[], 26⟩ : Ws) 1 "line") 1 c' =
        cellAt (⟨[], 26⟩ : Ws) 1 c' :=
  append_record_preserves_header_row ⟨[], 26⟩ 1 "line" (by decide)

/-- C1 counterexample: on a column whose row 2 is empty but whose row 3 is
not, the first empty cell of the column is row 2, yet the record is written
into row 4 and row 2 stays empty. -/
theorem append_record_gap_counterexample :
    cellAt (⟨[["h"], [], ["x"]], 26⟩ : Ws) 1 1 ≠ "" ∧
    cellAt (⟨[["h"], [], ["x"]], 26⟩ : Ws) 2 1 = "" ∧
    first_empty_row (⟨[["h"], [], ["x"]], 26⟩ : Ws) 1 = 4 ∧
    cellAt (append_record_under_column (⟨[["h"], [], ["x"]], 26⟩ : Ws) 1 "line")
      2 1 = "" ∧
    cellAt (append_record_under_column (⟨[["h"], [], ["x"]], 26⟩ : Ws) 1 "line")
      4 1 = "line" := by
  decide

/-- C1 (amended): `append_record_under_column` writes the record into the
row immediately after the last non-empty cell of the column, and never above
row 2.  The target cell and every cell below it are empty, and (unless the
target is row 2) the cell just above the target is non-empty; so the target
is the first empty cell exactly when the column has no interior gap. -/
theorem append_record_after_last_nonempty (ws : Ws) (c : Nat)
    (record_line : String) (hc : 1 ≤ c) :
    2 ≤ first_empty_row ws c ∧
    (∀ r, first_empty_row ws c ≤ r → cellAt ws r c = "") ∧
    (first_empty_row ws c = 2 ∨
      cellAt ws (first_empty_row ws c - 1) c ≠ "") ∧
    append_record_under_column ws c record_line =
      update_cell ws (first_empty_row ws c) c record_line ∧
    cellAt (append_record_under_column ws c record_line)
      (first_empty_row ws c) c = record_line ∧
    (∀ r c', 1 ≤ r → 1 ≤ c' →
      cellAt (append_record_under_column ws c record_line) r c' ≠
        cellAt ws r c' →
      r = first_empty_row ws c ∧ c' = c) := by
  have hfer := first_empty_row_eq ws c
  refine ⟨first_empty_row_ge_two ws c, ?_, ?_, rfl, ?_, ?_⟩
  · intro r hr
    apply cellAt_beyond_col
    omega
  · by_cases hlen : (col_values ws c).length = 0
    · left
      omega
    · right
      have h1 : first_empty_row ws c - 1 = (col_values ws c).length := by omega
      rw [h1]
      apply cellAt_last_col
      intro hnil
      exact hlen (by rw [hnil]; rfl)
  · unfold append_record_under_column
    rw [cellAt_update_cell _ _ _ _ _ _
        (by have := first_empty_row_ge_two ws c; omega) hc
        (by have := first_empty_row_ge_two ws c; omega) hc]
    rw [if_pos ⟨rfl, rfl⟩]
  · intro r c' hr hc' hne
    exact append_frame ws c record_line hc r c' hr hc' hne

/-- Witness for the amended C1 on a gapless column. -/
theorem append_record_after_last_nonempty_witness :
    2 ≤ first_empty_row (⟨[["h"], ["r1"]], 26⟩ : Ws) 1 ∧
    (∀ r, first_empty_row (⟨[["h"], ["r1"]], 26⟩ : Ws) 1 ≤ r →
      cellAt (⟨[["h"], ["r1"]], 26⟩ : Ws) r 1 = "") ∧
    (first_empty_row (⟨[["h"], ["r1"]], 26⟩ : Ws) 1 = 2 ∨
      cellAt (⟨[["h"], ["r1"]], 26⟩ : Ws)
        (first_empty_row (⟨[["h"], ["r1"]], 26⟩ : Ws) 1 - 1) 1 ≠ "") ∧
    append_record_under_column (⟨[["h"], ["r1"]], 26⟩ : Ws) 1 "r2" =
      update_cell (⟨[["h"], ["r1"]], 26⟩ : Ws)
        (first_empty_row (⟨[["h"], ["r1"]], 26⟩ : Ws) 1) 1 "r2" ∧
    cellAt (append_record_under_column (⟨[["h"], ["r1"]], 26⟩ : Ws) 1 "r2")
      (first_empty_row (⟨[["h"], ["r1"]], 26⟩ : Ws) 1) 1 = "r2" ∧
    (∀ r c', 1 ≤ r → 1 ≤ c' →
      cellAt (append_record_under_column (⟨[["h"], ["r1"]], 26⟩ : Ws) 1 "r2")
          r c' ≠ cellAt (⟨[["h"], ["r1"]], 26⟩ : Ws) r c' →
      r = first_empty_row (⟨[["h"], ["r1"]], 26⟩ : Ws) 1 ∧ c' = 1) :=
  append_record_after_last_nonempty ⟨[["h"], ["r1"]], 26⟩ 1 "r2" (by decide)

/-- C2: `get_or_create_date_column` never duplicates a date header.  When
the date already occurs in row 1 it returns the (1-based) position of that
header and writes nothing; otherwise it writes the date into the empty cell
one past the reported headers and returns that position, so row 1 gains
exactly one occurrence of the date exactly when it was absent.  In both
cases the returned column holds the date and no cell outside row 1, column
`col` changes. -/
theorem get_or_create_date_column_no_duplicate (ws : Ws) (d : String)
    (hd : d ≠ "") :
    1 ≤ (get_or_create_date_column ws d).1 ∧
    (row_values (get_or_create_date_column ws d).2 1).getD
        ((get_or_create_date_column ws d).1 - 1) "" = d ∧
    (∀ r c, 1 ≤ r → 1 ≤ c →
        cellAt (get_or_create_date_column ws d).2 r c ≠ cellAt ws r c →
        r = 1 ∧ c = (get_or_create_date_column ws d).1) ∧
    (if d ∈ row_values ws 1 then
        (get_or_create_date_column ws d).2 = ws ∧
        (row_values (get_or_create_date_column ws d).2 1).count d =
          (row_values ws 1).count d
     else
        cellAt ws 1 (get_or_create_date_column ws d).1 = "" ∧
        row_values (get_or_create_date_column ws d).2 1 =
          row_values ws 1 ++ [d] ∧
        (row_values (get_or_create_date_column ws d).2 1).count d =
          (row_values ws 1).count d + 1) := by
  refine ⟨gcreate_col_pos ws d, ?_, fun r c hr hc hne =>
    gcreate_frame ws d r c hr hc hne, ?_⟩
  · cases hpi : pyIndex (row_values ws 1) d with
    | some i =>
      rw [gcreate_of_found ws d i hpi]
      obtain ⟨hlt, hget⟩ := pyIndex_some_spec _ _ _ hpi
      simpa using hget
    | none =>
      have hrow := gcreate_row1_missing ws d hd hpi
      have hcol : (get_or_create_date_column ws d).1 =
          (row_values ws 1).length + 1 := by
        rw [gcreate_of_missing ws d hpi]
      rw [hrow, hcol]
      simp [getD_append_length]
  · cases hpi : pyIndex (row_values ws 1) d with
    | some i =>
      rw [if_pos (pyIndex_mem _ _ _ hpi)]
      rw [gcreate_of_found ws d i hpi]
      exact ⟨rfl, rfl⟩
    | none =>
      rw [if_neg ((pyIndex_none_iff _ _).mp hpi)]
      have hrow := gcreate_row1_missing ws d hd hpi
      have hcol : (get_or_create_date_column ws d).1 =
          (row_values ws 1).length + 1 := by
        rw [gcreate_of_missing ws d hpi]
      refine ⟨?_, hrow, ?_⟩
      · rw [hcol]
        exact rtrim_getD_beyond _ _ (le_refl _)
      · rw [hrow]
        simp

/-- Witness for C2: creating a fresh header next to an existing one. -/
theorem get_or_create_date_column_no_duplicate_witness :
    1 ≤ (get_or_create_date_column (⟨[["01/01/2025"]], 26⟩ : Ws) "02/01/2025").1 ∧
    (row_values (get_or_create_date_column (⟨[["01/01/2025"]], 26⟩ : Ws)
        "02/01/2025").2 1).getD
        ((get_or_create_date_column (⟨[["01/01/2025"]], 26⟩ : Ws)
          "02/01/2025").1 - 1) "" = "02/01/2025" ∧
    (∀ r c, 1 ≤ r → 1 ≤ c →
        cellAt (get_or_create_date_column (⟨[["01/01/2025"]], 26⟩ : Ws)
          "02/01/2025").2 r c ≠ cellAt (⟨[["01/01/2025"]], 26⟩ : Ws) r c →
        r = 1 ∧ c = (get_or_create_date_column (⟨[["01/01/2025"]], 26⟩ : Ws)
          "02/01/2025").1) ∧
    (if "02/01/2025" ∈ row_values (⟨[["01/01/2025"]], 26⟩ : Ws) 1 then
        (get_or_create_date_column (⟨[["01/01/2025"]], 26⟩ : Ws)
          "02/01/2025").2 = (⟨[["01/01/2025"]], 26⟩ : Ws) ∧
        (row_values (get_or_create_date_column (⟨[["01/01/2025"]], 26⟩ : Ws)
          "02/01/2025").2 1).count "02/01/2025" =
          (row_values (⟨[["01/01/2025"]], 26⟩ : Ws) 1).count "02/01/2025"
     else
        cellAt (⟨[["01/01/2025"]], 26⟩ : Ws) 1
          (get_or_create_date_column (⟨[["01/01/2025"]], 26⟩ : Ws)
            "02/01/2025").1 = "" ∧
        row_values (get_or_create_date_column (⟨[["01/01/2025"]], 26⟩ : Ws)
          "02/01/2025").2 1 =
          row_values (⟨[["01/01/2025"]], 26⟩ : Ws) 1 ++ ["02/01/2025"] ∧
        (row_values (get_or_create_date_column (⟨[["01/01/2025"]], 26⟩ : Ws)
          "02/01/2025").2 1).count "02/01/2025" =
          (row_values (⟨[["01/01/2025"]], 26⟩ : Ws) 1).count "02/01/2025" + 1) :=
  get_or_create_date_column_no_duplicate ⟨[["01/01/2025"]], 26⟩ "02/01/2025"
    (by decide)

theorem flow_ws_frame (failAt : Option Nat) (apiErr : String) (ws0 : Ws)
    (d record : String) :
    ∃ col row, 1 ≤ col ∧ 2 ≤ row ∧
      ∀ r c, 1 ≤ r → 1 ≤ c →
        cellAt (sheetsFlow failAt apiErr ws0 d record).ws r c ≠
          cellAt ws0 r c →
        (r = 1 ∧ c = col) ∨ (r = row ∧ c = col) := by
  simp only [sheetsFlow]
  split
  · exact ⟨1, 2, le_rfl, le_rfl, fun r c _ _ hne => absurd rfl hne⟩
  · split
    · exact ⟨1, 2, le_rfl, le_rfl, fun r c _ _ hne => absurd rfl hne⟩
    · split
      · exact ⟨1, 2, le_rfl, le_rfl, fun r c hr hc hne =>
          absurd (ensure_cellEq ws0 r c hr hc) hne⟩
      · split
        · refine ⟨(get_or_create_date_column (ensure_header_row ws0) d).1, 2,
            gcreate_col_pos _ _, le_rfl, ?_⟩
          intro r c hr hc hne
          left
          by_cases hg :
              cellAt (get_or_create_date_column (ensure_header_row ws0) d).2
                r c = cellAt (ensure_header_row ws0) r c
          · rw [hg, ensure_cellEq ws0 r c hr hc] at hne
            exact absurd rfl hne
          · exact gcreate_frame (ensure_header_row ws0) d r c hr hc hg
        · refine ⟨(get_or_create_date_column (ensure_header_row ws0) d).1,
            first_empty_row
              (get_or_create_date_column (ensure_header_row ws0) d).2
              (get_or_create_date_column (ensure_header_row ws0) d).1,
            gcreate_col_pos _ _, first_empty_row_ge_two _ _, ?_⟩
          intro r c hr hc hne
          by_cases ha :
              cellAt (append_record_under_column
                (get_or_create_date_column (ensure_header_row ws0) d).2
                (get_or_create_date_column (ensure_header_row ws0) d).1
                record) r c =
              cellAt (get_or_create_date_column (ensure_header_row ws0) d).2
                r c
          · rw [ha] at hne
            left
            by_cases hg :
                cellAt (get_or_create_date_column (ensure_header_row ws0) d).2
                  r c = cellAt (ensure_header_row ws0) r c
            · rw [hg, ensure_cellEq ws0 r c hr hc] at hne
              exact absurd rfl hne
            · exact gcreate_frame (ensure_header_row ws0) d r c hr hc hg
          · right
            exact append_frame _ _ _ (gcreate_col_pos _ _) r c hr hc ha

theorem attendance_ws_eq_flow (msg : String) (u : Option String)
    (ts apiErr : String) (failAt : Option Nat) (ws0 : Ws)
    (d s n r t : String)
    (hm : pyStrip msg ≠ "/attendance")
    (hp : parse_attendance_args (pyStrip msg) = .ok (d, s, n, r, t)) :
    (attendance msg u ts failAt apiErr ws0).ws =
      (sheetsFlow failAt apiErr ws0 d
        (format_record_line n u s r ts t)).ws := by
  simp only [attendance]
  rw [if_neg hm, hp]
  cases hF : sheetsFlow failAt apiErr ws0 d
      (format_record_line n u s r ts t) with
  | mk err w a =>
    cases err <;> simp [hF]

theorem attendance_parse_error_eq (msg : String) (u : Option String)
    (ts apiErr err : String) (failAt : Option Nat) (ws0 : Ws)
    (hm : pyStrip msg ≠ "/attendance")
    (hp : parse_attendance_args (pyStrip msg) = .error err) :
    attendance msg u ts failAt apiErr ws0 = ⟨[parseErrReply err], ws0, 0⟩ := by
  simp only [attendance]
  rw [if_neg hm, hp]

/-- C10: when the arguments fail parsing or validation, the handler replies
with the error and returns before any spreadsheet operation: zero Sheets
operations are attempted and the sheet is unchanged. -/
theorem attendance_parse_error_no_sheet_op (msg : String) (u : Option String)
    (ts apiErr err : String) (failAt : Option Nat) (ws0 : Ws)
    (hm : pyStrip msg ≠ "/attendance")
    (hp : parse_attendance_args (pyStrip msg) = .error err) :
    attendance msg u ts failAt apiErr ws0 = ⟨[parseErrReply err], ws0, 0⟩ :=
  attendance_parse_error_eq msg u ts apiErr err failAt ws0 hm hp

/-- Witness for C10 on a malformed date, with a would-fail Sheets API. -/
theorem attendance_parse_error_no_sheet_op_witness :
    attendance "/attendance 99/99/2025 absent bob sick NA" none "ts" (some 1)
      "boom" ⟨[["h"]], 26⟩ =
    ⟨[parseErrReply "time data does not match format %d/%m/%Y"],
     ⟨[["h"]], 26⟩, 0⟩ :=
  attendance_parse_error_no_sheet_op
    "/attendance 99/99/2025 absent bob sick NA" none "ts" "boom"
    "time data does not match format %d/%m/%Y" (some 1) ⟨[["h"]], 26⟩
    (by decide) (by rfl)

/-- C4: when the `k`-th spreadsheet operation of the handler's `try` block
raises, the handler catches it (it still returns a `HandlerOut`), sends the
single reply `sheetsErrReply apiErr` — which echoes the raised error — and
attempts exactly `k` spreadsheet operations: the failing call is the last
thing tried, so it is neither retried nor followed by further calls, and no
exception propagates. -/
theorem attendance_api_error_caught_once (msg : String) (u : Option String)
    (ts apiErr : String) (k : Nat) (ws0 : Ws) (d s n r t : String)
    (hp : parse_attendance_args (pyStrip msg) = .ok (d, s, n, r, t))
    (hk1 : 1 ≤ k) (hk4 : k ≤ 4) :
    (attendance msg u ts (some k) apiErr ws0).replies =
      [sheetsErrReply apiErr] ∧
    (attendance msg u ts (some k) apiErr ws0).attempts = k := by
  have hm : pyStrip msg ≠ "/attendance" := by
    intro he
    rw [he] at hp
    have hcon : parse_attendance_args "/attendance" =
        Except.error "Missing parameters." := rfl
    rw [hcon] at hp
    exact Except.noConfusion hp
  simp only [attendance]
  rw [if_neg hm, hp]
  interval_cases k <;> simp [sheetsFlow]

/-- Witness for C4: the very first Sheets operation fails. -/
theorem attendance_api_error_caught_once_witness :
    (attendance "/attendance 03/09/2025 absent marvell sick NA" none "ts"
      (some 1) "boom" ⟨[], 26⟩).replies = [sheetsErrReply "boom"] ∧
    (attendance "/attendance 03/09/2025 absent marvell sick NA" none "ts"
      (some 1) "boom" ⟨[], 26⟩).attempts = 1 :=
  attendance_api_error_caught_once
    "/attendance 03/09/2025 absent marvell sick NA" none "ts" "boom" 1
    ⟨[], 26⟩ "03/09/2025" "absent" "marvell" "sick" "NA" (by rfl)
    (by decide) (by decide)

/-- The success path of the handler's `try` block is, cell for cell, the
composition of `get_or_create_date_column` and `append_record_under_column`
applied to the incoming sheet: the `ensure_header_row` setup step only ever
writes an empty string into an empty cell. -/
theorem success_ws_cellEq (ws0 : Ws) (d s : String) :
    cellEq
      (append_record_under_column
        (get_or_create_date_column (ensure_header_row ws0) d).2
        (get_or_create_date_column (ensure_header_row ws0) d).1 s)
      (append_record_under_column
        (get_or_create_date_column ws0 d).2
        (get_or_create_date_column ws0 d).1 s) := by
  obtain ⟨hcol, hws⟩ := gcreate_congr (ensure_cellEq ws0) d
  rw [hcol]
  exact append_congr hws _ s (gcreate_col_pos ws0 d)

/-- C5: a successful `/attendance` invocation with arguments performs
exactly the listed operations in order — validate the five fields (the
parse hypothesis), find-or-append the date header, find-or-append the
record row under it, format the record, send one reply.  The handler sends
exactly the one success reply, attempts exactly the four spreadsheet
operations of the `try` block, and the final sheet agrees cell for cell
with `append_record_under_column` composed with
`get_or_create_date_column` on the incoming sheet and nothing else. -/
theorem attendance_success_exact_operations (msg : String) (u : Option String)
    (ts apiErr : String) (ws0 : Ws) (d s n r t : String)
    (hp : parse_attendance_args (pyStrip msg) = .ok (d, s, n, r, t)) :
    (attendance msg u ts none apiErr ws0).replies =
      [successReply n s d r t ts] ∧
    (attendance msg u ts none apiErr ws0).attempts = 4 ∧
    (∀ rr cc, 1 ≤ rr → 1 ≤ cc →
      cellAt (attendance msg u ts none apiErr ws0).ws rr cc =
        cellAt (append_record_under_column
          (get_or_create_date_column ws0 d).2
          (get_or_create_date_column ws0 d).1
          (format_record_line n u s r ts t)) rr cc) := by
  have hm : pyStrip msg ≠ "/attendance" := by
    intro he
    rw [he] at hp
    have hcon : parse_attendance_args "/attendance" =
        Except.error "Missing parameters." := rfl
    rw [hcon] at hp
    exact Except.noConfusion hp
  refine ⟨?_, ?_, ?_⟩
  · simp only [attendance]
    rw [if_neg hm, hp]
    simp [sheetsFlow]
  · simp only [attendance]
    rw [if_neg hm, hp]
    simp [sheetsFlow]
  · intro rr cc hrr hcc
    rw [attendance_ws_eq_flow msg u ts apiErr none ws0 d s n r t hm hp]
    have hflow : (sheetsFlow none apiErr ws0 d
        (format_record_line n u s r ts t)).ws =
        append_record_under_column
          (get_or_create_date_column (ensure_header_row ws0) d).2
          (get_or_create_date_column (ensure_header_row ws0) d).1
          (format_record_line n u s r ts t) := by
      simp [sheetsFlow]
    rw [hflow]
    exact success_ws_cellEq ws0 d (format_record_line n u s r ts t)
      rr cc hrr hcc

/-- Witness for C5 on an empty sheet. -/
theorem attendance_success_exact_operations_witness :
    (attendance "/attendance 03/09/2025 absent marvell sick NA" (some "marv")
      "2025-09-03 10:00:00" none "boom" ⟨[], 26⟩).replies =
      [successReply "marvell" "absent" "03/09/2025" "sick" "NA"
        "2025-09-03 10:00:00"] ∧
    (attendance "/attendance 03/09/2025 absent marvell sick NA" (some "marv")
      "2025-09-03 10:00:00" none "boom" ⟨[], 26⟩).attempts = 4 ∧
    (∀ rr cc, 1 ≤ rr → 1 ≤ cc →
      cellAt (attendance "/attendance 03/09/2025 absent marvell sick NA"
        (some "marv") "2025-09-03 10:00:00" none "boom" ⟨[], 26⟩).ws rr cc =
        cellAt (append_record_under_column
          (get_or_create_date_column (⟨[], 26⟩ : Ws) "03/09/2025").2
          (get_or_create_date_column (⟨[], 26⟩ : Ws) "03/09/2025").1
          (format_record_line "marvell" (some "marv") "absent" "sick"
            "2025-09-03 10:00:00" "NA")) rr cc) :=
  attendance_success_exact_operations
    "/attendance 03/09/2025 absent marvell sick NA" (some "marv")
    "2025-09-03 10:00:00" "boom" ⟨[], 26⟩ "03/09/2025" "absent" "marvell"
    "sick" "NA" (by rfl)

/-- C7: whatever happens on an `/attendance` invocation, the only state that
changes is the spreadsheet, and there at most one header cell (row 1 of one
column) and one record cell (one row at or below 2 of the same column); the
handler output consists only of that sheet and the replies, and the handler
carries no state of its own between invocations (it is a function of its
inputs alone). -/
theorem attendance_frame_only_spreadsheet (msg : String) (u : Option String)
    (ts apiErr : String) (failAt : Option Nat) (ws0 : Ws) :
    ∃ col row, 1 ≤ col ∧ 2 ≤ row ∧
      ∀ r c, 1 ≤ r → 1 ≤ c →
        cellAt (attendance msg u ts failAt apiErr ws0).ws r c ≠
          cellAt ws0 r c →
        (r = 1 ∧ c = col) ∨ (r = row ∧ c = col) := by
  by_cases hm : pyStrip msg = "/attendance"
  · refine ⟨1, 2, le_rfl, le_rfl, ?_⟩
    intro r c _ _ hne
    simp only [attendance, if_pos hm] at hne
    exact absurd rfl hne
  · cases hp : parse_attendance_args (pyStrip msg) with
    | error e =>
      refine ⟨1, 2, le_rfl, le_rfl, ?_⟩
      intro r c _ _ hne
      rw [attendance_parse_error_eq msg u ts apiErr e failAt ws0
        hm hp] at hne
      exact absurd rfl hne
    | ok q =>
      obtain ⟨d, s, n, r, t⟩ := q
      obtain ⟨col, row, h1, h2, h3⟩ :=
        flow_ws_frame failAt apiErr ws0 d (format_record_line n u s r ts t)
      refine ⟨col, row, h1, h2, ?_⟩
      intro rr cc hrr hcc hne
      rw [attendance_ws_eq_flow msg u ts apiErr failAt ws0 d s n r t
        hm hp] at hne
      exact h3 rr cc hrr hcc hne

/-! ### C6 and C9 -/

theorem data_append (s t : String) : (s ++ t).data = s.data ++ t.data := rfl

set_option maxHeartbeats 1000000 in
/-- C6: for newline-free field values (as every parsed submission produces),
the recorded cell value is exactly the six labelled lines Name, Telegram
Handle (`@handle`, or `N/A` when the username is absent or empty), Status,
Reason, Submitted and Time (the time detail, or `NA` when not applicable),
joined in this order — five newline characters, hence exactly six lines. -/
theorem format_record_line_six_lines (name : String) (u : Option String)
    (status reason ts td : String)
    (h1 : name.data.count '\n' = 0) (h2 : (handleOf u).data.count '\n' = 0)
    (h3 : status.data.count '\n' = 0) (h4 : reason.data.count '\n' = 0)
    (h5 : ts.data.count '\n' = 0) (h6 : td.data.count '\n' = 0) :
    format_record_line name u status reason ts td =
      joinLines ["Name: " ++ name, "Telegram Handle: " ++ handleOf u,
        "Status: " ++ status, "Reason: " ++ reason, "Submitted: " ++ ts,
        "Time: " ++ (if pyUpper td = "NA" then "NA" else td)] ∧
    (format_record_line name u status reason ts td).data.count '\n' = 5 := by
  constructor
  · simp only [format_record_line, joinLines]
    by_cases hna : pyUpper td = "NA"
    · rw [if_neg (not_not_intro hna), if_pos hna]
      apply congrArg String.mk
      simp only [data_append, List.append_assoc]
      rfl
    · rw [if_pos hna, if_neg hna]
      apply congrArg String.mk
      simp only [data_append, List.append_assoc]
      rfl
  · simp only [format_record_line]
    by_cases hna : pyUpper td = "NA"
    · rw [if_neg (not_not_intro hna)]
      simp [data_append, List.count_append, h1, h2, h3, h4, h5, h6]
    · rw [if_pos hna]
      simp [data_append, List.count_append, h1, h2, h3, h4, h5, h6]

/-- Witness for C6 on a concrete submission. -/
theorem format_record_line_six_lines_witness :
    (format_record_line "marvell" (some "marv") "absent" "sick"
        "2025-09-03 10:00:00" "NA" =
      joinLines ["Name: " ++ "marvell",
        "Telegram Handle: " ++ handleOf (some "marv"),
        "Status: " ++ "absent", "Reason: " ++ "sick",
        "Submitted: " ++ "2025-09-03 10:00:00",
        "Time: " ++ (if pyUpper "NA" = "NA" then "NA" else "NA")]) ∧
    (format_record_line "marvell" (some "marv") "absent" "sick"
        "2025-09-03 10:00:00" "NA").data.count '\n' = 5 :=
  format_record_line_six_lines "marvell" (some "marv") "absent" "sick"
    "2025-09-03 10:00:00" "NA" (by decide) (by decide) (by decide) (by decide)
    (by decide) (by decide)

theorem parseTokens_leave_shape (d st x r1 t : String) (rs : List String)
    (hd : validDate d = true)
    (ht : pyUpper t = "NA" ∨ validTime t = true)
    (hx : x ≠ "")
    (hr : pyStrip (String.intercalate " " (r1 :: rs)) ≠ "")
    (hst : pyStrip (pyLower st) = "leave" ∨ pyStrip (pyLower st) = "leaveearly"
      ∨ pyStrip (pyLower st) = "leave_early") :
    parseTokens (d :: st :: x :: r1 :: rs ++ [t]) =
      .ok (d, "leave early", x,
        pyStrip (String.intercalate " " (r1 :: rs)), t) := by
  simp only [parseTokens]
  rw [if_neg (by simp)]
  have g0 : (d :: st :: x :: r1 :: rs ++ [t]).getD 0 "" = d := rfl
  have g1 : (d :: st :: x :: r1 :: rs ++ [t]).getD 1 "" = st := rfl
  have g2 : (d :: st :: x :: r1 :: rs ++ [t]).getD 2 "" = x := rfl
  have gl : (d :: st :: x :: r1 :: rs ++ [t]).getLastD "" = t := by
    rw [show d :: st :: x :: r1 :: rs ++ [t] =
        (d :: st :: x :: r1 :: rs) ++ [t] from by simp]
    exact List.getLastD_concat "" t (d :: st :: x :: r1 :: rs)
  have gd : ((d :: st :: x :: r1 :: rs ++ [t]).drop 3).dropLast = r1 :: rs := by
    rw [show (d :: st :: x :: r1 :: rs ++ [t]).drop 3 =
        (r1 :: rs) ++ [t] from by simp]
    exact List.dropLast_concat
  rw [g0, g1, g2, gl, gd]
  rw [if_neg (by simp [hd])]
  rw [if_pos hst]
  show (if pyUpper t ≠ "NA" ∧ ¬validTime t = true then
      Except.error "time data does not match format %H:%M"
    else if x = "" then Except.error "Name cannot be empty."
    else if pyStrip (String.intercalate " " (r1 :: rs)) = "" then
      Except.error "Reason cannot be empty. Use 'Reason NA' if none."
    else Except.ok (d, "leave early", x,
      pyStrip (String.intercalate " " (r1 :: rs)), t)) =
    Except.ok (d, "leave early", x,
      pyStrip (String.intercalate " " (r1 :: rs)), t)
  rw [if_neg (by
    intro hcon
    rcases ht with h | h
    · exact hcon.1 h
    · exact hcon.2 h)]
  rw [if_neg hx, if_neg hr]

/-- C9: when the status is spelled as the two words `leave early`, the
second token is `leave` and `parse_attendance_args` (here `parseTokens`,
its body after whitespace tokenization) normalizes the status to
`leave early` but takes the name from the third token — the word `early` —
and folds the intended name into the reason; the one-token spellings
`leave_early` and `leaveearly` put the intended name in the name field. -/
theorem parse_leave_two_word_name_shift (d x r1 t : String) (rs : List String)
    (hd : validDate d = true)
    (ht : pyUpper t = "NA" ∨ validTime t = true)
    (hx : x ≠ "")
    (hr : pyStrip (String.intercalate " " (r1 :: rs)) ≠ "") :
    parseTokens (d :: "leave" :: x :: r1 :: rs ++ [t]) =
      .ok (d, "leave early", x,
        pyStrip (String.intercalate " " (r1 :: rs)), t) ∧
    parseTokens (d :: "leave_early" :: x :: r1 :: rs ++ [t]) =
      .ok (d, "leave early", x,
        pyStrip (String.intercalate " " (r1 :: rs)), t) ∧
    parseTokens (d :: "leaveearly" :: x :: r1 :: rs ++ [t]) =
      .ok (d, "leave early", x,
        pyStrip (String.intercalate " " (r1 :: rs)), t) :=
  ⟨parseTokens_leave_shape d "leave" x r1 t rs hd ht hx hr (Or.inl (by rfl)),
   parseTokens_leave_shape d "leave_early" x r1 t rs hd ht hx hr
     (Or.inr (Or.inr (by rfl))),
   parseTokens_leave_shape d "leaveearly" x r1 t rs hd ht hx hr
     (Or.inr (Or.inl (by rfl)))⟩

/-- Witness for C9: the user typed
`/attendance 03/09/2025 leave early marvell family matter 20:30`, whose
argument tokens after the date are `leave`, `early`, `marvell`, `family`,
`matter`, `20:30`; the name field becomes `early` and `marvell` folds into
the reason.  With `leave_early`/`leaveearly` the name field is `marvell`. -/
theorem parse_leave_two_word_name_shift_witness :
    parseTokens ("03/09/2025" :: "leave" :: "early" :: "marvell" ::
        ["family", "matter"] ++ ["20:30"]) =
      .ok ("03/09/2025", "leave early", "early",
        pyStrip (String.intercalate " " ("marvell" :: ["family", "matter"])),
        "20:30") ∧
    parseTokens ("03/09/2025" :: "leave_early" :: "early" :: "marvell" ::
        ["family", "matter"] ++ ["20:30"]) =
      .ok ("03/09/2025", "leave early", "early",
        pyStrip (String.intercalate " " ("marvell" :: ["family", "matter"])),
        "20:30") ∧
    parseTokens ("03/09/2025" :: "leaveearly" :: "early" :: "marvell" ::
        ["family", "matter"] ++ ["20:30"]) =
      .ok ("03/09/2025", "leave early", "early",
        pyStrip (String.intercalate " " ("marvell" :: ["family", "matter"])),
        "20:30") :=
  parse_leave_two_word_name_shift "03/09/2025" "early" "marvell" "20:30"
    ["family", "matter"] (by rfl) (by decide) (by decide) (by decide)
